import Mathlib

/-!
# Revolver Roulette — shallow embedding of the turn engine and opponent policy

The definitions below embed the TypeScript sources of the game:

* `src/lib/types.ts` — data model (`Player`, `AIMemory`, `GameState`, …);
* `src/lib/constants.ts` — `GAME_CONFIG`, `AI_NAMES`, `PLAYER_AVATARS`;
* `src/lib/gameEngine.ts` — `GameEngine` (initialize, spin, shot, damage,
  win detection, turn recording);
* `src/lib/aiEngine.ts` — `AIEngine` (`decideTarget`, `updateMemory`, and the
  shot-resolution portion of `executeAITurn`);
* `src/hooks/useGameState.ts` — `gameReducer` and its `GameAction` type.

Conventions of the embedding:

* JavaScript numbers are `Int` (health, timestamps) or `ℚ` (rotations and the
  values of `Math.random()`, which lie in `[0,1)`); every call to
  `Math.random()` becomes an explicit `ℚ` parameter.
* `Date.now()` becomes an explicit `now : Int` parameter.
* A JavaScript `Map` (insertion-ordered) becomes an association list; `get`
  returns the first binding, `set` replaces an existing binding in place and
  otherwise appends.
* Code paths on which the JavaScript would throw (indexing `undefined`, the
  non-null assertions `state.currentShooter!` / `state.selectedTarget!`
  evaluated at `null`) are modelled by `Option`: `none` is a thrown exception,
  `some s` a normally returned state.
-/

namespace Revolver

/-- `PlayerType` from `types.ts`. -/
inductive PlayerType where
  | HUMAN
  | AI
deriving DecidableEq, Repr

/-- `GamePhase` from `types.ts`. -/
inductive GamePhase where
  | SETUP
  | SPINNING
  | CHOOSING_TARGET
  | SHOOTING
  | GAME_OVER
deriving DecidableEq, Repr

/-- `Player` from `types.ts`. -/
structure Player where
  id : String
  name : String
  type : PlayerType
  health : Int
  isAlive : Bool
  position : Nat
  avatar : String
deriving DecidableEq, Repr

/-- `AIMemory` from `types.ts`. -/
structure AIMemory where
  playerId : String
  grudges : List String
deriving DecidableEq, Repr

/-- `TurnRecord` from `types.ts`. -/
structure TurnRecord where
  timestamp : Int
  shooter : String
  target : String
  wasBlank : Bool
  killed : Bool
deriving DecidableEq, Repr

/-- `GameConfig` from `types.ts`. -/
structure GameConfig where
  playerCount : Nat
  startingHealth : Int
  blankProbability : ℚ
  playerShootChance : ℚ
  aiShootChance : ℚ
deriving DecidableEq, Repr

/-- The association-list embedding of the JavaScript `Map<string, AIMemory>`. -/
abbrev MemoryMap := List (String × AIMemory)

/-- `GameState` from `types.ts`. -/
structure GameState where
  players : List Player
  currentShooter : Option String
  selectedTarget : Option String
  phase : GamePhase
  revolverRotation : ℚ
  aiMemories : MemoryMap
  turnHistory : List TurnRecord
  gameStartTime : Int
  lastSaveTime : Int
deriving DecidableEq, Repr

/-- `GAME_CONFIG` from `constants.ts`. -/
def GAME_CONFIG : GameConfig :=
  { playerCount := 5
    startingHealth := 3
    blankProbability := 1/2
    playerShootChance := 2/5
    aiShootChance := 3/5 }

/-- `AI_NAMES` from `constants.ts`. -/
def AI_NAMES : List String := ["Viktor", "Natasha", "Boris", "Svetlana"]

/-- `PLAYER_AVATARS` from `constants.ts`. -/
def PLAYER_AVATARS : List String := ["🎯", "🤖", "🎲", "🎰", "🎪"]

/-- `Map.prototype.get`: the value of the first binding for `key`. -/
def mapGet : MemoryMap → String → Option AIMemory
  | [], _ => none
  | (k, v) :: rest, key => if k = key then some v else mapGet rest key

/-- `Map.prototype.has`. -/
def mapHasKey (m : MemoryMap) (key : String) : Bool :=
  m.any fun p => p.1 = key

/-- `Map.prototype.set`: replace an existing binding in place, otherwise
append a new binding at the end (insertion order). -/
def mapSet (m : MemoryMap) (key : String) (v : AIMemory) : MemoryMap :=
  if mapHasKey m key then
    m.map fun p => if p.1 = key then (key, v) else p
  else
    m ++ [(key, v)]

/-- The grudge list recorded for victim `v` (empty when no binding exists). -/
def grudgesOf (m : MemoryMap) (v : String) : List String :=
  ((mapGet m v).getD { playerId := v, grudges := [] }).grudges

/-- `Math.floor(r * n)` for a draw `r` and an array length `n`. -/
def ratIndex (r : ℚ) (n : Nat) : Nat :=
  (⌊r * n⌋).toNat

/-- The number of alive players in a list. -/
def countAlive (l : List Player) : Nat :=
  (l.filter (·.isAlive)).length

/-- The alive sub-list of a player list (`players.filter(p => p.isAlive)`). -/
def aliveOf (l : List Player) : List Player :=
  l.filter (·.isAlive)

/-- `GameEngine.initializeGame` from `gameEngine.ts`; `Date.now()` is the
parameter `now`. -/
def initializeGame (config : GameConfig) (now : Int) : GameState :=
  { players :=
      { id := "player-0", name := "You", type := .HUMAN,
        health := config.startingHealth, isAlive := true, position := 0,
        avatar := (PLAYER_AVATARS.get? 0).getD "" } ::
      AI_NAMES.enum.map (fun p =>
        { id := "ai-" ++ toString (p.1 + 1), name := p.2, type := .AI,
          health := config.startingHealth, isAlive := true,
          position := p.1 + 1,
          avatar := (PLAYER_AVATARS.get? (p.1 + 1)).getD "" })
    currentShooter := none
    selectedTarget := none
    phase := .SETUP
    revolverRotation := 0
    aiMemories := []
    turnHistory := []
    gameStartTime := now
    lastSaveTime := now }

/-- `GameEngine.spinRevolver` from `gameEngine.ts`.  The two `Math.random()`
calls are the parameters `r1` (shooter index draw) and `r2` (spin count draw);
the result is `(newRotation, shooterId)`, `none` when the JavaScript would
throw (no alive player at the drawn index). -/
def spinRevolver (state : GameState) (r1 r2 : ℚ) : Option (ℚ × String) :=
  let alivePlayers := state.players.filter (·.isAlive)
  let randomIndex := ratIndex r1 alivePlayers.length
  match alivePlayers.get? randomIndex with
  | none => none
  | some shooter =>
    let rotationPerPlayer : ℚ := 360 / (state.players.length : ℚ)
    let targetRotation : ℚ := (shooter.position : ℚ) * rotationPerPlayer
    let spins : Int := 3 + ⌊r2 * 3⌋
    some ((spins : ℚ) * 360 + targetRotation, shooter.id)

/-- The shooter id component of `spinRevolver`. -/
def spinShooterId (state : GameState) (r1 r2 : ℚ) : Option String :=
  (spinRevolver state r1 r2).map (·.2)

/-- `GameEngine.attemptShot` from `gameEngine.ts`: `Math.random() > 0.5`,
`true` meaning the shot hits.  The single `Math.random()` call is the
parameter `r`; the function takes no probability parameter. -/
def attemptShot (r : ℚ) : Bool :=
  decide (r > 1/2)

/-- Whether a shot with draw `r` was a blank: the negation `!isHit` used by
the reducer and by `executeAITurn`. -/
def shotWasBlank (r : ℚ) : Bool :=
  !(attemptShot r)

/-- `GameEngine.applyDamage` from `gameEngine.ts`. -/
def applyDamage (player : Player) : Player :=
  { player with
      health := player.health - 1
      isAlive := decide (player.health - 1 > 0) }

/-- `GameEngine.checkGameOver` from `gameEngine.ts`: `(isOver, winner)`. -/
def checkGameOver (players : List Player) : Bool × Option Player :=
  let alivePlayers := players.filter (·.isAlive)
  if alivePlayers.length = 1 then (true, alivePlayers.head?)
  else if alivePlayers.length = 0 then (true, none)
  else (false, none)

/-- `GameEngine.recordTurn` from `gameEngine.ts`; `Date.now()` is `now`. -/
def recordTurn (state : GameState) (now : Int) (shooter target : String)
    (wasBlank killed : Bool) : GameState :=
  { state with
      turnHistory := state.turnHistory ++
        [{ timestamp := now, shooter := shooter, target := target,
           wasBlank := wasBlank, killed := killed }] }

/-- `AIEngine.decideTarget` from `aiEngine.ts`.  The four potential
`Math.random()` calls become the parameters `r1` (grudge-branch probability),
`r2` (grudge-target index), `r3` (human-branch probability) and `r4`
(fallback index); a branch that is not reached simply ignores its draw.
`none` models the JavaScript throwing (indexing an empty array).  The
JavaScript `aiTargets.sort((a,b) => a.health - b.health)` is a stable sort by
ascending health, embedded as `List.mergeSort`. -/
def decideTarget (aiPlayer : Player) (allPlayers : List Player)
    (aiMemories : MemoryMap) (r1 r2 r3 r4 : ℚ) : Option String :=
  let alivePlayers := allPlayers.filter fun p =>
    p.isAlive && !(p.id = aiPlayer.id : Bool)
  -- Priority 1: revenge against grudge targets, taken with probability 0.8.
  let grudgeStep : Option (Option String) :=
    match mapGet aiMemories aiPlayer.id with
    | some memory =>
      if 0 < memory.grudges.length then
        let grudgeTargets := alivePlayers.filter fun p =>
          memory.grudges.contains p.id
        if 0 < grudgeTargets.length then
          if r1 < 4/5 then
            some ((grudgeTargets.get? (ratIndex r2 grudgeTargets.length)).map (·.id))
          else none
        else none
      else none
    | none => none
  match grudgeStep with
  | some res => res
  | none =>
    -- Priority 2: target the human player with probability 0.6.
    let humanStep : Option (Option String) :=
      match alivePlayers.find? (fun p => p.type = PlayerType.HUMAN) with
      | some humanPlayer =>
        if r3 < 3/5 then some (some humanPlayer.id) else none
      | none => none
    match humanStep with
    | some res => res
    | none =>
      -- Priority 3: the lowest-health AI target.
      let aiTargets := alivePlayers.filter fun p => p.type = PlayerType.AI
      if 0 < aiTargets.length then
        ((aiTargets.mergeSort fun a b => a.health ≤ b.health).head?).map (·.id)
      else
        -- Fallback: a uniformly random alive target.
        (alivePlayers.get? (ratIndex r4 alivePlayers.length)).map (·.id)

/-- JavaScript `String.prototype.startsWith`, phrased on the character data
of the strings. -/
def strStartsWith (s pre : String) : Bool :=
  decide (s.data.take pre.data.length = pre.data)

/-- `AIEngine.updateMemory` from `aiEngine.ts`. -/
def updateMemory (aiMemories : MemoryMap) (targetId shooterId : String)
    (wasBlank : Bool) : MemoryMap :=
  if wasBlank && strStartsWith targetId "ai-" then
    let memory := (mapGet aiMemories targetId).getD
      { playerId := targetId, grudges := [] }
    let memory' :=
      if memory.grudges.contains shooterId then memory
      else { memory with grudges := memory.grudges ++ [shooterId] }
    mapSet aiMemories targetId memory'
  else
    aiMemories

/-- The synchronous shot-resolution portion of `AIEngine.executeAITurn` from
`aiEngine.ts` (the damage application, memory update and turn record computed
after the pacing delays; the delays themselves are presentation only).  The
draw of `GameEngine.attemptShot` is the parameter `isHit`; `Date.now()` is
`now`.  `none` models the JavaScript throwing (damage applied to a target id
not present in the player list). -/
def executeAIShot (state : GameState) (now : Int) (shooter : Player)
    (targetId : String) (isHit : Bool) : Option GameState :=
  let damage : Option (List Player × Bool) :=
    if isHit then
      match state.players.findIdx? (fun p => p.id = targetId) with
      | none => none
      | some i =>
        match state.players.get? i with
        | none => none
        | some target =>
          some (state.players.set i (applyDamage target),
                !(applyDamage target).isAlive)
    else
      some (state.players, false)
  match damage with
  | none => none
  | some (newPlayers, killed) =>
    let newMemories :=
      if !isHit then updateMemory state.aiMemories targetId shooter.id true
      else state.aiMemories
    some (recordTurn
      { state with
          players := newPlayers
          aiMemories := newMemories
          phase := .SHOOTING }
      now shooter.id targetId (!isHit) killed)

/-- The `Partial<GameState>` payload of the `UPDATE_STATE` action from
`useGameState.ts`: each field is overridden when present. -/
structure StatePatch where
  players : Option (List Player) := none
  currentShooter : Option (Option String) := none
  selectedTarget : Option (Option String) := none
  phase : Option GamePhase := none
  revolverRotation : Option ℚ := none
  aiMemories : Option MemoryMap := none
  turnHistory : Option (List TurnRecord) := none
  gameStartTime : Option Int := none
  lastSaveTime : Option Int := none
deriving DecidableEq, Repr

/-- The object spread `{ ...state, ...action.payload }` for a partial
payload. -/
def applyPatch (s : GameState) (p : StatePatch) : GameState :=
  { players := p.players.getD s.players
    currentShooter := p.currentShooter.getD s.currentShooter
    selectedTarget := p.selectedTarget.getD s.selectedTarget
    phase := p.phase.getD s.phase
    revolverRotation := p.revolverRotation.getD s.revolverRotation
    aiMemories := p.aiMemories.getD s.aiMemories
    turnHistory := p.turnHistory.getD s.turnHistory
    gameStartTime := p.gameStartTime.getD s.gameStartTime
    lastSaveTime := p.lastSaveTime.getD s.lastSaveTime }

/-- `GameAction` from `useGameState.ts`. -/
inductive GameAction where
  | INIT_GAME (config : GameConfig)
  | LOAD_GAME (state : GameState)
  | SPIN_REVOLVER
  | SET_SPINNER_RESULT (rotation : ℚ) (shooterId : String)
  | SELECT_TARGET (targetId : String)
  | SHOOT
  | SHOT_RESULT (isHit : Bool)
  | NEXT_TURN
  | GAME_OVER
  | UPDATE_STATE (payload : StatePatch)
deriving DecidableEq, Repr

/-- The commands that drive a turn, as opposed to the wholesale state
replacements `INIT_GAME`, `LOAD_GAME` and `UPDATE_STATE`. -/
def GameAction.isTurnCommand : GameAction → Bool
  | .INIT_GAME _ => false
  | .LOAD_GAME _ => false
  | .UPDATE_STATE _ => false
  | _ => true

/-- `gameReducer` from `useGameState.ts`; `Date.now()` inside
`GameEngine.recordTurn` is `now`.  `none` models the JavaScript throwing
inside the `SHOT_RESULT` case: `applyDamage` on an `undefined` target, or the
non-null assertions `state.selectedTarget!` / `state.currentShooter!`
evaluated at `null`. -/
def gameReducer (state : GameState) (action : GameAction) (now : Int) :
    Option GameState :=
  match action with
  | .INIT_GAME config => some (initializeGame config now)
  | .LOAD_GAME s => some s
  | .SPIN_REVOLVER => some { state with phase := .SPINNING }
  | .SET_SPINNER_RESULT rotation shooterId =>
    some { state with
             revolverRotation := rotation
             currentShooter := some shooterId
             phase := .CHOOSING_TARGET }
  | .SELECT_TARGET targetId =>
    some { state with selectedTarget := some targetId }
  | .SHOOT => some { state with phase := .SHOOTING }
  | .SHOT_RESULT isHit =>
    let targetIdx : Option Nat := state.selectedTarget.bind fun t =>
      state.players.findIdx? fun p => p.id = t
    let damage : Option (List Player × Bool) :=
      if isHit then
        match targetIdx with
        | none => none
        | some i =>
          match state.players.get? i with
          | none => none
          | some target =>
            some (state.players.set i (applyDamage target),
                  !(applyDamage target).isAlive)
      else
        some (state.players, false)
    match damage with
    | none => none
    | some (newPlayers, killed) =>
      let memories : Option MemoryMap :=
        if !isHit && (state.currentShooter = some "player-0" : Bool) then
          match state.selectedTarget with
          | none => none
          | some t => some (updateMemory state.aiMemories t "player-0" true)
        else
          some state.aiMemories
      match memories with
      | none => none
      | some newMemories =>
        match state.currentShooter, state.selectedTarget with
        | some shooter, some target =>
          some (recordTurn
            { state with players := newPlayers, aiMemories := newMemories }
            now shooter target (!isHit) killed)
        | _, _ => none
  | .NEXT_TURN =>
    some { state with
             phase := .SETUP
             currentShooter := none
             selectedTarget := none }
  | .GAME_OVER => some { state with phase := .GAME_OVER }
  | .UPDATE_STATE payload => some (applyPatch state payload)

/-- Dispatching a list of actions in order, propagating a thrown exception. -/
def runActions (state : GameState) (actions : List GameAction) (now : Int) :
    Option GameState :=
  actions.foldl (fun acc a => acc.bind fun s => gameReducer s a now)
    (some state)

/-- The health recorded for the player with id `i`, when the run completed
and such a player exists. -/
def healthOf (res : Option GameState) (i : String) : Option (Option Int) :=
  res.map fun s => (s.players.find? fun p => decide (p.id = i)).map (·.health)

/-- The alive flag recorded for the player with id `i`, when the run
completed and such a player exists. -/
def aliveStatusOf (res : Option GameState) (i : String) : Option (Option Bool) :=
  res.map fun s => (s.players.find? fun p => decide (p.id = i)).map (·.isAlive)

/-- Whether a resolution result records shooter `sh` in victim `t`'s grudge
set. -/
def grudgeRecorded (t sh : String) (res : Option GameState) : Bool :=
  match res with
  | some s' => (grudgesOf s'.aiMemories t).contains sh
  | none => false

/-- Whether an opponent-policy result is the id of an actor of `allPlayers`
that is alive and distinct from the deciding actor. -/
def targetOk (aiPlayer : Player) (allPlayers : List Player)
    (res : Option String) : Bool :=
  match res with
  | some tid =>
    allPlayers.any fun p =>
      p.isAlive && decide (p.id = tid) && !(decide (p.id = aiPlayer.id))
  | none => false

/-- A command sequence that selects `ai-1` and lands three hits, killing it. -/
def killAi1Actions : List GameAction :=
  [.SET_SPINNER_RESULT 0 "player-0", .SELECT_TARGET "ai-1",
   .SHOT_RESULT true, .SHOT_RESULT true, .SHOT_RESULT true]

/-- `killAi1Actions` followed by a fourth hit on the already-dead `ai-1`. -/
def overkillActions : List GameAction :=
  killAi1Actions ++ [.SHOT_RESULT true]

/-- An `UPDATE_STATE` payload replacing the player list with the freshly
initialized (all-alive) one. -/
def resurrectionPatch : StatePatch :=
  { players := some (initializeGame GAME_CONFIG 0).players }

/-- The formalization of the claim that shot resolution honours the
configured blank probability: blank exactly on the canonical measure-`p`
region `[0, p)` of the unit draw, where `p` is the configuration's
`blankProbability`. -/
def blankMatchesConfig : Prop :=
  ∀ (cfg : GameConfig) (r : ℚ), 0 ≤ r → r < 1 →
    (shotWasBlank r = true ↔ r < cfg.blankProbability)

/-!
## Helper lemmas
-/

theorem mapGet_map_update (m : MemoryMap) (k : String) (v : AIMemory)
    (h : mapHasKey m k = true) :
    mapGet (m.map fun p => if p.1 = k then (k, v) else p) k = some v := by
  induction m with
  | nil => simp [mapHasKey] at h
  | cons a rest ih =>
    simp only [List.map_cons]
    by_cases ha : a.1 = k
    · rw [if_pos ha]
      simp [mapGet]
    · rw [if_neg ha]
      have h' : mapHasKey rest k = true := by
        simp [mapHasKey] at h ⊢
        rcases h with h | h
        · exact absurd h ha
        · exact h
      simp [mapGet, ha, ih h']

theorem mapGet_append_single (m : MemoryMap) (k : String) (v : AIMemory)
    (h : mapHasKey m k = false) :
    mapGet (m ++ [(k, v)]) k = some v := by
  induction m with
  | nil => simp [mapGet]
  | cons a rest ih =>
    have ha : ¬ (a.1 = k) := by
      simp [mapHasKey] at h
      exact h.1
    have h' : mapHasKey rest k = false := by
      simp [mapHasKey] at h ⊢
      exact h.2
    simp [mapGet, ha, ih h']

theorem mapGet_mapSet_self (m : MemoryMap) (k : String) (v : AIMemory) :
    mapGet (mapSet m k v) k = some v := by
  unfold mapSet
  by_cases h : mapHasKey m k = true
  · simp [h, mapGet_map_update m k v h]
  · simp at h
    simp [h, mapGet_append_single m k v h]

theorem mapGet_map_update_ne (m : MemoryMap) (k k' : String) (v : AIMemory)
    (hne : k' ≠ k) :
    mapGet (m.map fun p => if p.1 = k then (k, v) else p) k' = mapGet m k' := by
  have hne' : ¬ (k = k') := fun hc => hne hc.symm
  induction m with
  | nil => simp
  | cons a rest ih =>
    simp only [List.map_cons]
    by_cases ha : a.1 = k
    · rw [if_pos ha]
      have ha' : ¬ (a.1 = k') := by
        rw [ha]
        exact hne'
      simp [mapGet, hne', ha', ih]
    · rw [if_neg ha]
      by_cases hb : a.1 = k'
      · simp [mapGet, hb]
      · simp [mapGet, hb, ih]

theorem mapGet_append_single_ne (m : MemoryMap) (k k' : String) (v : AIMemory)
    (hne : k' ≠ k) :
    mapGet (m ++ [(k, v)]) k' = mapGet m k' := by
  have hne' : ¬ (k = k') := fun hc => hne hc.symm
  induction m with
  | nil => simp [mapGet, hne']
  | cons a rest ih =>
    by_cases ha : a.1 = k'
    · simp [mapGet, ha]
    · simp [mapGet, ha, ih]

theorem mapSet_eq_of_has (m : MemoryMap) (k : String) (v : AIMemory)
    (h : mapHasKey m k = true) :
    mapSet m k v = m.map fun p => if p.1 = k then (k, v) else p := by
  simp [mapSet, h]

theorem mapSet_eq_of_not_has (m : MemoryMap) (k : String) (v : AIMemory)
    (h : mapHasKey m k = false) :
    mapSet m k v = m ++ [(k, v)] := by
  simp [mapSet, h]

theorem mapGet_mapSet_ne (m : MemoryMap) (k k' : String) (v : AIMemory)
    (hne : k' ≠ k) :
    mapGet (mapSet m k v) k' = mapGet m k' := by
  by_cases h : mapHasKey m k = true
  · rw [mapSet_eq_of_has m k v h]
    exact mapGet_map_update_ne m k k' v hne
  · simp at h
    rw [mapSet_eq_of_not_has m k v h]
    exact mapGet_append_single_ne m k k' v hne

theorem map_update_id (m : MemoryMap) (k : String) (v : AIMemory)
    (h : mapHasKey m k = false) :
    (m.map fun p => if p.1 = k then (k, v) else p) = m := by
  induction m with
  | nil => simp
  | cons a rest ih =>
    have ha : ¬ (a.1 = k) := by
      simp [mapHasKey] at h
      exact h.1
    have h' : mapHasKey rest k = false := by
      simp [mapHasKey] at h ⊢
      exact h.2
    simp only [List.map_cons, if_neg ha, ih h']

theorem mapHasKey_map_update (m : MemoryMap) (k : String) (v : AIMemory) :
    mapHasKey (m.map fun p => if p.1 = k then (k, v) else p) k
      = mapHasKey m k := by
  induction m with
  | nil => simp [mapHasKey]
  | cons a rest ih =>
    simp only [List.map_cons]
    by_cases ha : a.1 = k
    · rw [if_pos ha]
      simp [mapHasKey, ha]
    · rw [if_neg ha]
      simp [mapHasKey, ha]
      simpa [mapHasKey, List.any_map, Function.comp] using ih

theorem mapSet_mapSet_same (m : MemoryMap) (k : String) (v : AIMemory) :
    mapSet (mapSet m k v) k v = mapSet m k v := by
  by_cases h : mapHasKey m k = true
  · have h1 := mapSet_eq_of_has m k v h
    have h2 : mapHasKey (mapSet m k v) k = true := by
      rw [h1, mapHasKey_map_update]
      exact h
    rw [mapSet_eq_of_has _ k v h2, h1, List.map_map]
    apply List.map_congr_left
    intro p _
    by_cases hp : p.1 = k <;> simp [hp]
  · simp at h
    have h1 := mapSet_eq_of_not_has m k v h
    have h2 : mapHasKey (mapSet m k v) k = true := by
      rw [h1]
      simp [mapHasKey]
    rw [mapSet_eq_of_has _ k v h2, h1, List.map_append, map_update_id m k v h]
    simp

/-- The memory value that `updateMemory` stores for the victim when the
update condition holds. -/
def nextMemory (m : MemoryMap) (t sh : String) : AIMemory :=
  let memory := (mapGet m t).getD { playerId := t, grudges := [] }
  if memory.grudges.contains sh then memory
  else { memory with grudges := memory.grudges ++ [sh] }

theorem updateMemory_not_cond (m : MemoryMap) (t sh : String) (b : Bool)
    (h : (b && strStartsWith t "ai-") = false) :
    updateMemory m t sh b = m := by
  unfold updateMemory
  simp [h]

theorem updateMemory_of_cond (m : MemoryMap) (t sh : String)
    (h : strStartsWith t "ai-" = true) :
    updateMemory m t sh true = mapSet m t (nextMemory m t sh) := by
  unfold updateMemory nextMemory
  simp [h]

theorem mem_grudges_nextMemory (m : MemoryMap) (t sh : String) :
    sh ∈ (nextMemory m t sh).grudges := by
  unfold nextMemory
  by_cases hc : ((mapGet m t).getD
      { playerId := t, grudges := [] }).grudges.contains sh = true
  · simp only [hc, if_true]
    simpa using hc
  · have hnc : sh ∉ ((mapGet m t).getD
        { playerId := t, grudges := [] }).grudges := by simpa using hc
    simp [hnc]

theorem mem_grudges_updateMemory (m : MemoryMap) (t sh : String)
    (h : strStartsWith t "ai-" = true) :
    sh ∈ grudgesOf (updateMemory m t sh true) t := by
  rw [updateMemory_of_cond m t sh h]
  unfold grudgesOf
  rw [mapGet_mapSet_self]
  exact mem_grudges_nextMemory m t sh

theorem updateMemory_idem (m : MemoryMap) (t sh : String) (b : Bool) :
    updateMemory (updateMemory m t sh b) t sh b = updateMemory m t sh b := by
  cases hb : (b && strStartsWith t "ai-") with
  | false => rw [updateMemory_not_cond m t sh b hb,
      updateMemory_not_cond m t sh b hb]
  | true =>
    have hb' : b = true ∧ strStartsWith t "ai-" = true := by simpa using hb
    obtain ⟨rfl, hss⟩ := hb'
    rw [updateMemory_of_cond m t sh hss,
      updateMemory_of_cond _ t sh hss]
    have h1 : nextMemory (mapSet m t (nextMemory m t sh)) t sh
        = nextMemory m t sh := by
      have hm : (nextMemory m t sh).grudges.contains sh = true := by
        simpa using mem_grudges_nextMemory m t sh
      unfold nextMemory
      rw [mapGet_mapSet_self]
      simp [hm]
      intro hmem
      exact absurd (by simpa [nextMemory] using hm) hmem
    rw [h1, mapSet_mapSet_same]

/-!
## Claims
-/

/-- **C1 (counterexample).**  The claim says a `shoot` command issued while
the phase is `Setup` is rejected with `InvalidPhase` and the state is
unchanged (deep equality).  On the freshly initialized state, whose phase is
`Setup`, the reducer instead accepts the `SHOOT` command and returns a state
that is not deep-equal to the input (the phase has moved to `Shooting`); no
error is reported. -/
theorem c1_counterexample :
    (initializeGame GAME_CONFIG 0).phase = GamePhase.SETUP ∧
    gameReducer (initializeGame GAME_CONFIG 0) GameAction.SHOOT 0 ≠
      some (initializeGame GAME_CONFIG 0) := by
  constructor
  · rfl
  · intro h
    have h' : ({ initializeGame GAME_CONFIG 0 with
        phase := GamePhase.SHOOTING } : GameState).phase =
        (initializeGame GAME_CONFIG 0).phase := by
      rw [Option.some_inj.1 h]
    simp [initializeGame] at h'

/-- **C1 (amended).**  The reducer performs no phase validation and has no
typed error channel: the spin, select-target and shoot commands are accepted
in every phase — spin unconditionally sets the phase to `Spinning`,
select-target unconditionally stores the target, and shoot unconditionally
sets the phase to `Shooting`.  In particular a `shoot` issued during `Setup`
changes the state rather than leaving it deep-equal. -/
theorem c1_amended (s : GameState) (now : Int) (t : String) :
    gameReducer s GameAction.SPIN_REVOLVER now =
      some { s with phase := GamePhase.SPINNING } ∧
    gameReducer s (GameAction.SELECT_TARGET t) now =
      some { s with selectedTarget := some t } ∧
    gameReducer s GameAction.SHOOT now =
      some { s with phase := GamePhase.SHOOTING } :=
  ⟨rfl, rfl, rfl⟩

/-- **C2 (counterexample).**  The claim says the blank outcome tracks the
configured `blankProbability` (blank exactly on a measure-`p` region of the
draw).  With the configuration's blank probability set to `3/10` and the
draw `2/5`, the code still reports a blank (`attemptShot` compares the draw
against the fixed constant `1/2`), although `2/5` lies outside the canonical
measure-`3/10` region `[0, 3/10)`. -/
theorem c2_counterexample : ¬ blankMatchesConfig := by
  intro h
  have h' := h { GAME_CONFIG with blankProbability := 3/10 } (2/5)
    (by norm_num) (by norm_num)
  rw [show shotWasBlank (2/5) = true by
    simp [shotWasBlank, attemptShot]
    norm_num] at h'
  have : (2/5 : ℚ) < 3/10 := h'.1 rfl
  norm_num at this

/-- **C2 (amended).**  Shot resolution draws exactly once from the random
source, but ignores the configured `blankProbability`: the outcome is a blank
exactly when the single draw is at most the fixed constant `1/2`
(`GameEngine.attemptShot` takes no probability parameter at all), a constant
50% region for every configuration. -/
theorem c2_amended (r : ℚ) :
    shotWasBlank r = true ↔ r ≤ 1/2 := by
  simp [shotWasBlank, attemptShot]

/-- **C4 (counterexample).**  The claim says stored health never goes
negative because a not-alive actor receives no further damage.  Starting from
the initialized state, the command sequence that selects `ai-1` and resolves
four consecutive hits is accepted by the reducer, and afterwards `ai-1`'s
stored health is `-1`: the reducer applies damage to an already-dead target. -/
theorem c4_counterexample :
    healthOf (runActions (initializeGame GAME_CONFIG 0) overkillActions 0)
        "ai-1" = some (some (-1)) ∧
    (runActions (initializeGame GAME_CONFIG 0) overkillActions 0).map
        (fun s => s.players.any fun p => decide (p.health < 0)) =
      some true := by
  constructor
  · rfl
  · rfl

/-- **C4 (amended).**  Damage application decrements stored health by exactly
one and recomputes the alive flag as `health > 0`; but the engine does not
stop applying damage once an actor is not-alive — the reducer damages
whatever target is selected, alive or dead, so repeated shot resolutions on a
dead target drive its stored health below zero. -/
theorem c4_amended (p : Player) :
    (applyDamage p).health = p.health - 1 ∧
    ((applyDamage p).isAlive = true ↔ 0 < p.health - 1) := by
  constructor
  · rfl
  · simp [applyDamage]

/-- **C10.**  Initialization ignores `config.playerCount` and always creates
exactly five actors: the human `player-0` ("You") at position 0 and the four
autonomous actors `ai-1`–`ai-4` at positions 1–4, each alive with health
`config.startingHealth`; the phase is `Setup`, there is no armed actor and no
selected target, and the turn history and grudge memory are empty. -/
theorem c10_initializeGame (config : GameConfig) (now : Int) (n : Nat) :
    (initializeGame config now).players.length = 5 ∧
    (initializeGame config now).players.map (·.id) =
      ["player-0", "ai-1", "ai-2", "ai-3", "ai-4"] ∧
    (initializeGame config now).players.map (·.position) = [0, 1, 2, 3, 4] ∧
    (initializeGame config now).players.map (·.type) =
      [PlayerType.HUMAN, PlayerType.AI, PlayerType.AI, PlayerType.AI,
       PlayerType.AI] ∧
    (initializeGame config now).players.map (·.health) =
      [config.startingHealth, config.startingHealth, config.startingHealth,
       config.startingHealth, config.startingHealth] ∧
    (initializeGame config now).players.map (·.isAlive) =
      [true, true, true, true, true] ∧
    (initializeGame config now).phase = GamePhase.SETUP ∧
    (initializeGame config now).currentShooter = none ∧
    (initializeGame config now).selectedTarget = none ∧
    (initializeGame config now).turnHistory = [] ∧
    (initializeGame config now).aiMemories = [] ∧
    initializeGame { config with playerCount := n } now =
      initializeGame config now :=
  ⟨rfl, rfl, rfl, rfl, rfl, rfl, rfl, rfl, rfl, rfl, rfl, rfl⟩

/-- **C9.**  Grudge-memory insertion is idempotent and monotone, and is
keyed by the victim: applying the same update twice equals applying it once;
no existing grudge entry of any victim is ever removed; every victim other
than the target keeps its binding unchanged; and inserting the same shooter
twice into a well-formed grudge set leaves exactly one entry for that
shooter. -/
theorem c9_grudge_algebra (m : MemoryMap) (t sh : String) (b : Bool) :
    updateMemory (updateMemory m t sh b) t sh b = updateMemory m t sh b ∧
    (∀ v x, x ∈ grudgesOf m v → x ∈ grudgesOf (updateMemory m t sh b) v) ∧
    (∀ v, v ≠ t → mapGet (updateMemory m t sh b) v = mapGet m v) ∧
    (strStartsWith t "ai-" = true → (grudgesOf m t).count sh ≤ 1 →
      (grudgesOf (updateMemory (updateMemory m t sh true) t sh true) t).count
        sh = 1) := by
  refine ⟨updateMemory_idem m t sh b, ?_, ?_, ?_⟩
  · intro v x hx
    cases hb : (b && strStartsWith t "ai-") with
    | false => rw [updateMemory_not_cond m t sh b hb]; exact hx
    | true =>
      have hb' : b = true ∧ strStartsWith t "ai-" = true := by simpa using hb
      obtain ⟨rfl, hss⟩ := hb'
      rw [updateMemory_of_cond m t sh hss]
      by_cases hv : v = t
      · subst hv
        unfold grudgesOf at hx ⊢
        rw [mapGet_mapSet_self]
        simp only [Option.getD_some]
        unfold nextMemory
        by_cases hc : ((mapGet m v).getD
            { playerId := v, grudges := [] }).grudges.contains sh = true
        · rw [if_pos hc]
          exact hx
        · rw [if_neg hc]
          exact List.mem_append_left _ hx
      · unfold grudgesOf
        rw [mapGet_mapSet_ne m t v _ hv]
        exact hx
  · intro v hv
    cases hb : (b && strStartsWith t "ai-") with
    | false => rw [updateMemory_not_cond m t sh b hb]
    | true =>
      have hb' : b = true ∧ strStartsWith t "ai-" = true := by simpa using hb
      obtain ⟨rfl, hss⟩ := hb'
      rw [updateMemory_of_cond m t sh hss]
      exact mapGet_mapSet_ne m t v _ hv
  · intro hss hcount
    rw [updateMemory_idem m t sh true, updateMemory_of_cond m t sh hss]
    unfold grudgesOf at hcount ⊢
    rw [mapGet_mapSet_self]
    simp only [Option.getD_some]
    unfold nextMemory
    by_cases hc : ((mapGet m t).getD
        { playerId := t, grudges := [] }).grudges.contains sh = true
    · have hmem : sh ∈ ((mapGet m t).getD
          { playerId := t, grudges := [] }).grudges := by simpa using hc
      have hpos : 0 < (((mapGet m t).getD
          { playerId := t, grudges := [] }).grudges).count sh :=
        List.count_pos_iff.2 hmem
      rw [if_pos hc]
      omega
    · have hnc : sh ∉ ((mapGet m t).getD
          { playerId := t, grudges := [] }).grudges := by simpa using hc
      have hz : (((mapGet m t).getD
          { playerId := t, grudges := [] }).grudges).count sh = 0 :=
        List.count_eq_zero.2 hnc
      rw [if_neg hc]
      simp [List.count_append, hz]

/-- **C9 (witness).**  The general grudge-algebra theorem evaluated on the
empty memory with victim `ai-1` and shooter `player-0`: double insertion
equals single insertion, and the resulting set holds exactly one entry for
the shooter. -/
theorem c9_witness :
    updateMemory (updateMemory [] "ai-1" "player-0" true) "ai-1" "player-0"
        true = updateMemory [] "ai-1" "player-0" true ∧
    (grudgesOf (updateMemory (updateMemory [] "ai-1" "player-0" true) "ai-1"
        "player-0" true) "ai-1").count "player-0" = 1 :=
  ⟨(c9_grudge_algebra [] "ai-1" "player-0" true).1,
   (c9_grudge_algebra [] "ai-1" "player-0" true).2.2.2 (by decide)
     (by decide)⟩

theorem gameReducer_shotResult_blank (s : GameState) (now : Int) (t : String)
    (hcs : s.currentShooter = some "player-0")
    (hst : s.selectedTarget = some t) :
    gameReducer s (GameAction.SHOT_RESULT false) now =
      some (recordTurn
        { s with aiMemories := updateMemory s.aiMemories t "player-0" true }
        now "player-0" t true false) := by
  unfold gameReducer
  simp [hcs, hst]

/-- **C3.**  Whenever a resolved shot is a blank and the target is an
autonomous actor (its id starts with `ai-`), the shooter's id is inserted
into the target's grudge set, with the shooter treated uniformly: the shared
`updateMemory` records any shooter id (first conjunct); the reducer's
`SHOT_RESULT` path does so for the human shooter `player-0` (second
conjunct); and the `executeAITurn` resolution path does so for an autonomous
shooter (third conjunct). -/
theorem c3_blank_grudges (m : MemoryMap) (t sh : String) (s : GameState)
    (now : Int) (shooter : Player) (targetId : String) :
    (strStartsWith t "ai-" = true →
      sh ∈ grudgesOf (updateMemory m t sh true) t) ∧
    (s.currentShooter = some "player-0" → s.selectedTarget = some t →
      strStartsWith t "ai-" = true →
      grudgeRecorded t "player-0"
        (gameReducer s (GameAction.SHOT_RESULT false) now) = true) ∧
    (strStartsWith targetId "ai-" = true →
      grudgeRecorded targetId shooter.id
        (executeAIShot s now shooter targetId false) = true) := by
  refine ⟨fun hss => mem_grudges_updateMemory m t sh hss, ?_, ?_⟩
  · intro hcs hst hss
    rw [gameReducer_shotResult_blank s now t hcs hst]
    simp only [grudgeRecorded, recordTurn]
    simpa using mem_grudges_updateMemory s.aiMemories t "player-0" hss
  · intro hss
    unfold executeAIShot
    simp only [grudgeRecorded, recordTurn, Bool.not_false, if_true]
    simp only [Bool.false_eq_true, if_false]
    simpa using mem_grudges_updateMemory s.aiMemories targetId shooter.id hss

/-- The state used to exercise the human-shooter resolution path: freshly
initialized, with `player-0` armed and `ai-1` selected as target. -/
def c3StateW : GameState :=
  { initializeGame GAME_CONFIG 0 with
      currentShooter := some "player-0"
      selectedTarget := some "ai-1" }

/-- An autonomous shooter used to exercise the AI resolution path. -/
def c3ShooterW : Player :=
  { id := "ai-2", name := "Natasha", type := .AI, health := 3,
    isAlive := true, position := 2, avatar := "🎲" }

/-- **C3 (witness).**  Concrete blanks against `ai-1`: the shared update
records shooter `ai-2`; the reducer path records the human `player-0`; the
AI path records the autonomous shooter `ai-2`. -/
theorem c3_witness :
    ("ai-2" ∈ grudgesOf (updateMemory [] "ai-1" "ai-2" true) "ai-1") ∧
    grudgeRecorded "ai-1" "player-0"
      (gameReducer c3StateW (GameAction.SHOT_RESULT false) 0) = true ∧
    grudgeRecorded "ai-1" "ai-2"
      (executeAIShot c3StateW 0 c3ShooterW "ai-1" false) = true :=
  ⟨(c3_blank_grudges [] "ai-1" "ai-2" c3StateW 0 c3ShooterW "ai-1").1
     (by decide),
   (c3_blank_grudges [] "ai-1" "ai-2" c3StateW 0 c3ShooterW "ai-1").2.1
     rfl rfl (by decide),
   (c3_blank_grudges [] "ai-1" "ai-2" c3StateW 0 c3ShooterW "ai-1").2.2
     (by decide)⟩

/-- **C7.**  Win detection: with exactly one alive actor the result is
`(true, the unique alive actor)` (every alive member of the list is that
head); with zero alive actors it is `(true, none)`; with two or more alive
actors it is `(false, none)`. -/
theorem c7_checkGameOver (players : List Player) :
    ((aliveOf players).length = 1 →
      checkGameOver players = (true, (aliveOf players).head?) ∧
      ∀ w ∈ players, w.isAlive = true → (aliveOf players).head? = some w) ∧
    ((aliveOf players).length = 0 → checkGameOver players = (true, none)) ∧
    (2 ≤ (aliveOf players).length → checkGameOver players = (false, none)) := by
  have e : aliveOf players = players.filter (fun p => p.isAlive) := rfl
  refine ⟨?_, ?_, ?_⟩
  · intro h1
    constructor
    · simp only [checkGameOver]
      rw [← e, if_pos h1]
    · intro w hw hal
      have hmem : w ∈ aliveOf players := by
        simp [aliveOf, List.mem_filter, hw, hal]
      obtain ⟨a, ha⟩ := List.length_eq_one.1 h1
      rw [ha] at hmem ⊢
      simp at hmem
      simp [hmem]
  · intro h0
    have h1 : ¬ ((aliveOf players).length = 1) := by omega
    simp only [checkGameOver]
    rw [← e, if_neg h1, if_pos h0]
  · intro h2
    have h1 : ¬ ((aliveOf players).length = 1) := by omega
    have h0 : ¬ ((aliveOf players).length = 0) := by omega
    simp only [checkGameOver]
    rw [← e, if_neg h1, if_neg h0]

/-- A single alive player, for exercising the one-survivor branch. -/
def c7AliceW : Player :=
  { id := "alice", name := "Alice", type := .HUMAN, health := 2,
    isAlive := true, position := 0, avatar := "🎯" }

/-- A dead player, for exercising the one-survivor branch. -/
def c7BobW : Player :=
  { id := "bob", name := "Bob", type := .AI, health := 0,
    isAlive := false, position := 1, avatar := "🤖" }

/-- **C7 (witness).**  On a concrete two-player list with one survivor, win
detection reports game over with the surviving head of the alive filter as
winner. -/
theorem c7_witness :
    checkGameOver [c7AliceW, c7BobW] =
      (true, (aliveOf [c7AliceW, c7BobW]).head?) :=
  ((c7_checkGameOver [c7AliceW, c7BobW]).1 (by decide)).1

theorem ratIndex_lt (r : ℚ) (n : ℕ) (h1 : r < 1) (hn : 0 < n) :
    ratIndex r n < n := by
  unfold ratIndex
  have hfl : ⌊r * n⌋ < (n : ℤ) := by
    apply Int.floor_lt.2
    push_cast
    exact mul_lt_of_lt_one_left (by exact_mod_cast hn) h1
  omega

theorem ratIndex_eq_iff (r : ℚ) (n k : ℕ) (h0 : 0 ≤ r) (hn : 0 < n) :
    ratIndex r n = k ↔ ((k : ℚ) / n ≤ r ∧ r < (k + 1) / n) := by
  unfold ratIndex
  have hn' : (0 : ℚ) < n := by exact_mod_cast hn
  have h0' : 0 ≤ ⌊r * n⌋ := Int.floor_nonneg.2 (mul_nonneg h0 (by positivity))
  rw [show (⌊r * n⌋.toNat = k ↔ ⌊r * n⌋ = (k : ℤ)) by omega]
  rw [Int.floor_eq_iff]
  rw [div_le_iff₀ hn', lt_div_iff₀ hn']
  push_cast
  tauto

/-- **C5.**  The armed-actor draw: the shooter id returned by
`spinRevolver` is the id of the alive actor at index `⌊r₁ · n⌋` where `n` is
the number of alive actors (first conjunct); that index equals `k` exactly
when the draw falls in the cell `[k/n, (k+1)/n)` of measure `1/n`, the same
for every alive actor (second conjunct); and the draw is identical across
any two configurations that differ only in the advisory bias values
`playerShootChance` / `aiShootChance` — indeed `spinRevolver` consumes no
configuration at all (third conjunct). -/
theorem c5_uniform_draw (state : GameState) (r1 r2 : ℚ)
    (h0 : 0 ≤ r1) (h1 : r1 < 1) (hne : aliveOf state.players ≠ []) :
    spinShooterId state r1 r2 =
      ((aliveOf state.players).get?
        (ratIndex r1 (aliveOf state.players).length)).map (·.id) ∧
    (∀ k : ℕ, ratIndex r1 (aliveOf state.players).length = k ↔
      ((k : ℚ) / (aliveOf state.players).length ≤ r1 ∧
       r1 < (k + 1) / (aliveOf state.players).length)) ∧
    (∀ (c1 c2 : GameConfig) (t : Int), c1.playerCount = c2.playerCount →
      c1.startingHealth = c2.startingHealth →
      c1.blankProbability = c2.blankProbability →
      spinShooterId (initializeGame c1 t) r1 r2 =
        spinShooterId (initializeGame c2 t) r1 r2) := by
  have e : aliveOf state.players = state.players.filter (fun p => p.isAlive) :=
    rfl
  refine ⟨?_, ?_, ?_⟩
  · simp only [spinShooterId, spinRevolver]
    rw [← e]
    cases hg : (aliveOf state.players).get?
        (ratIndex r1 (aliveOf state.players).length) with
    | none => simp [hg]
    | some shooter => simp [hg]
  · intro k
    exact ratIndex_eq_iff r1 (aliveOf state.players).length k h0
      (List.length_pos.2 hne)
  · intro c1 c2 t hp hsh hbp
    have hinit : initializeGame c1 t = initializeGame c2 t := by
      unfold initializeGame
      rw [hsh]
    rw [hinit]

/-- **C5 (witness).**  On the freshly initialized five-player state with
draw `1/3`, the drawn index is `⌊(1/3)·5⌋ = 1`, obtained from the cell
characterization `1/5 ≤ 1/3 < 2/5`. -/
theorem c5_witness :
    ratIndex (1/3) (aliveOf (initializeGame GAME_CONFIG 0).players).length
      = 1 := by
  have h := (c5_uniform_draw (initializeGame GAME_CONFIG 0) (1/3) 0
    (by norm_num) (by norm_num) (by decide)).2.1 1
  apply h.2
  have hlen : (aliveOf (initializeGame GAME_CONFIG 0).players).length = 5 :=
    rfl
  rw [hlen]
  constructor <;> norm_num

theorem targetOk_of_mem (aiPlayer : Player) (allPlayers : List Player)
    (p : Player)
    (hp : p ∈ allPlayers.filter fun q =>
      q.isAlive && !(q.id = aiPlayer.id : Bool)) :
    targetOk aiPlayer allPlayers (some p.id) = true := by
  have hm := List.mem_filter.1 hp
  have hcond := hm.2
  simp at hcond
  unfold targetOk
  rw [List.any_eq_true]
  refine ⟨p, hm.1, ?_⟩
  simp [hcond.1, hcond.2]

/-- The tail of `decideTarget`'s priority cascade (priorities 2–4), reached
whenever the grudge step falls through. -/
def decideTargetRest (aiPlayer : Player) (allPlayers : List Player)
    (r3 r4 : ℚ) : Option String :=
  let alivePlayers := allPlayers.filter fun p =>
    p.isAlive && !(p.id = aiPlayer.id : Bool)
  let humanStep : Option (Option String) :=
    match alivePlayers.find? (fun p => p.type = PlayerType.HUMAN) with
    | some humanPlayer =>
      if r3 < 3/5 then some (some humanPlayer.id) else none
    | none => none
  match humanStep with
  | some res => res
  | none =>
    let aiTargets := alivePlayers.filter fun p => p.type = PlayerType.AI
    if 0 < aiTargets.length then
      ((aiTargets.mergeSort fun a b => a.health ≤ b.health).head?).map (·.id)
    else
      (alivePlayers.get? (ratIndex r4 alivePlayers.length)).map (·.id)

theorem targetOk_get? (aiPlayer : Player) (allPlayers : List Player)
    (l : List Player) (i : Nat)
    (hsub : ∀ p, p ∈ l → p ∈ allPlayers.filter fun q =>
      q.isAlive && !(q.id = aiPlayer.id : Bool))
    (hi : i < l.length) :
    targetOk aiPlayer allPlayers ((l.get? i).map (·.id)) = true := by
  rw [List.get?_eq_get hi]
  simp only [Option.map_some']
  exact targetOk_of_mem aiPlayer allPlayers _ (hsub _ (List.get_mem l i hi))

theorem decideTargetRest_ok (aiPlayer : Player) (allPlayers : List Player)
    (r3 r4 : ℚ)
    (hne : (allPlayers.filter fun p =>
      p.isAlive && !(p.id = aiPlayer.id : Bool)) ≠ [])
    (h4b : r4 < 1) :
    targetOk aiPlayer allPlayers
      (decideTargetRest aiPlayer allPlayers r3 r4) = true := by
  have hlen : 0 < (allPlayers.filter fun p =>
      p.isAlive && !(p.id = aiPlayer.id : Bool)).length :=
    List.length_pos.2 hne
  have hrest : ∀ res : Option String,
      res = (if 0 < ((allPlayers.filter fun p =>
              p.isAlive && !(p.id = aiPlayer.id : Bool)).filter fun p =>
              p.type = PlayerType.AI).length then
          ((((allPlayers.filter fun p =>
              p.isAlive && !(p.id = aiPlayer.id : Bool)).filter fun p =>
              p.type = PlayerType.AI).mergeSort fun a b =>
              a.health ≤ b.health).head?).map (·.id)
        else
          ((allPlayers.filter fun p =>
              p.isAlive && !(p.id = aiPlayer.id : Bool)).get?
            (ratIndex r4 (allPlayers.filter fun p =>
              p.isAlive && !(p.id = aiPlayer.id : Bool)).length)).map (·.id)) →
      targetOk aiPlayer allPlayers res = true := by
    intro res hres
    by_cases hai : 0 < ((allPlayers.filter fun p =>
        p.isAlive && !(p.id = aiPlayer.id : Bool)).filter fun p =>
        p.type = PlayerType.AI).length
    · rw [hres, if_pos hai]
      set aiTargets := ((allPlayers.filter fun p =>
        p.isAlive && !(p.id = aiPlayer.id : Bool)).filter fun p =>
        p.type = PlayerType.AI) with hait
      have hlm : (aiTargets.mergeSort fun a b =>
          a.health ≤ b.health).length = aiTargets.length :=
        List.length_mergeSort aiTargets
      cases hh : (aiTargets.mergeSort fun a b => a.health ≤ b.health).head? with
      | none =>
        have : aiTargets.mergeSort (fun a b => a.health ≤ b.health) = [] :=
          List.head?_eq_none_iff.1 hh
        rw [this] at hlm
        simp at hlm
        omega
      | some a =>
        simp only [Option.map_some']
        have h1 : a ∈ aiTargets.mergeSort fun a b => a.health ≤ b.health :=
          List.mem_of_mem_head? (by simp [hh])
        have h2 : a ∈ aiTargets :=
          (List.mergeSort_perm aiTargets _).subset h1
        exact targetOk_of_mem aiPlayer allPlayers a
          (List.mem_of_mem_filter h2)
    · rw [hres, if_neg hai]
      exact targetOk_get? aiPlayer allPlayers _ _ (fun p hp => hp)
        (ratIndex_lt r4 _ h4b hlen)
  unfold decideTargetRest
  cases hfind : (allPlayers.filter fun p =>
      p.isAlive && !(p.id = aiPlayer.id : Bool)).find?
      (fun p => p.type = PlayerType.HUMAN) with
  | none =>
    simp only [hfind]
    exact hrest _ rfl
  | some humanPlayer =>
    by_cases hr3 : r3 < 3/5
    · simp only [hfind, if_pos hr3]
      exact targetOk_of_mem aiPlayer allPlayers humanPlayer
        (List.mem_of_find?_eq_some hfind)
    · simp only [hfind, if_neg hr3]
      exact hrest _ rfl

/-- **C8.**  For every armed autonomous actor, player list and grudge memory
with at least one other alive actor, and for all values of the random draws,
the opponent policy's target decision succeeds and returns the id of an
actor that is alive and distinct from the deciding actor. -/
theorem c8_policy_total (aiPlayer : Player) (allPlayers : List Player)
    (aiMemories : MemoryMap) (r1 r2 r3 r4 : ℚ)
    (hne : (allPlayers.filter fun p =>
      p.isAlive && !(p.id = aiPlayer.id : Bool)) ≠ [])
    (h2b : r2 < 1) (h4b : r4 < 1) :
    targetOk aiPlayer allPlayers
      (decideTarget aiPlayer allPlayers aiMemories r1 r2 r3 r4) = true := by
  have hrest : targetOk aiPlayer allPlayers
      (decideTargetRest aiPlayer allPlayers r3 r4) = true :=
    decideTargetRest_ok aiPlayer allPlayers r3 r4 hne h4b
  unfold decideTarget
  cases hmem : mapGet aiMemories aiPlayer.id with
  | none =>
    simp only [hmem]
    exact hrest
  | some memory =>
    by_cases hg : 0 < memory.grudges.length
    · by_cases hgt : 0 < ((allPlayers.filter fun p =>
          p.isAlive && !(p.id = aiPlayer.id : Bool)).filter fun p =>
          memory.grudges.contains p.id).length
      · by_cases hr1 : r1 < 4/5
        · simp only [hmem, if_pos hg, if_pos hgt, if_pos hr1]
          exact targetOk_get? aiPlayer allPlayers _ _
            (fun p hp => List.mem_of_mem_filter hp)
            (ratIndex_lt r2 _ h2b hgt)
        · simp only [hmem, if_pos hg, if_pos hgt, if_neg hr1]
          exact hrest
      · simp only [hmem, if_pos hg, if_neg hgt]
        exact hrest
    · simp only [hmem, if_neg hg]
      exact hrest

/-- An armed autonomous actor used to exercise the opponent policy. -/
def c8PlayerW : Player :=
  { id := "ai-1", name := "Viktor", type := .AI, health := 3,
    isAlive := true, position := 1, avatar := "🤖" }

/-- **C8 (witness).**  On the freshly initialized player list with empty
memory and all draws `0`, the policy run by `ai-1` returns the id of an
alive actor other than `ai-1`. -/
theorem c8_witness :
    targetOk c8PlayerW (initializeGame GAME_CONFIG 0).players
      (decideTarget c8PlayerW (initializeGame GAME_CONFIG 0).players []
        0 0 0 0) = true :=
  c8_policy_total c8PlayerW (initializeGame GAME_CONFIG 0).players []
    0 0 0 0 (by decide) (by norm_num) (by norm_num)

theorem shotResult_players (s : GameState) (hit : Bool) (now : Int)
    (s' : GameState)
    (hred : gameReducer s (GameAction.SHOT_RESULT hit) now = some s') :
    s'.players = s.players ∨
    ∃ i target, s.players.get? i = some target ∧
      s'.players = s.players.set i (applyDamage target) := by
  unfold gameReducer at hred
  cases hit with
  | false =>
    simp only [Bool.false_eq_true, if_false] at hred
    left
    split at hred
    · exact Option.noConfusion hred
    · split at hred
      · obtain rfl := Option.some_inj.1 hred
        rfl
      · exact Option.noConfusion hred
  | true =>
    simp only [] at hred
    simp only [if_true] at hred
    rcases hti : (s.selectedTarget.bind fun t =>
        s.players.findIdx? fun p => p.id = t) with _ | i
    · simp only [hti] at hred
      exact Option.noConfusion hred
    · simp only [hti] at hred
      rcases hpi : s.players.get? i with _ | target
      · simp only [hpi] at hred
        exact Option.noConfusion hred
      · simp only [hpi] at hred
        simp only [Bool.not_true, Bool.false_and, Bool.false_eq_true,
          if_false] at hred
        right
        split at hred
        · obtain rfl := Option.some_inj.1 hred
          exact ⟨i, target, hpi, rfl⟩
        · exact Option.noConfusion hred

theorem countAlive_cons (a : Player) (l : List Player) :
    countAlive (a :: l) =
      (if a.isAlive = true then 1 else 0) + countAlive l := by
  by_cases ha : a.isAlive = true <;>
    simp [countAlive, List.filter_cons, ha, Nat.add_comm]

theorem countAlive_set_le (l : List Player) (i : Nat) (x : Player)
    (h : ∀ y, l.get? i = some y → x.isAlive = true → y.isAlive = true) :
    countAlive (l.set i x) ≤ countAlive l := by
  induction l generalizing i with
  | nil => simp [List.set]
  | cons a rest ih =>
    cases i with
    | zero =>
      simp only [List.set]
      rw [countAlive_cons, countAlive_cons]
      have hx := h a rfl
      by_cases hxa : x.isAlive = true
      · simp [hxa, hx hxa]
      · by_cases haa : a.isAlive = true <;> simp [hxa, haa]
    | succ n =>
      simp only [List.set]
      rw [countAlive_cons, countAlive_cons]
      have := ih n (fun y hy hxa => h y hy hxa)
      omega

/-- **C6 (counterexample).**  The claim quantifies over every command
processed by the engine.  Starting from the initialized state, the accepted
turn commands that select `ai-1` and land three hits leave `ai-1` not-alive;
the subsequent `UPDATE_STATE` command that replaces the player list with the
freshly initialized one is also accepted by the reducer and marks `ai-1`
alive again — an actor whose alive flag was false became alive. -/
theorem c6_counterexample :
    aliveStatusOf (runActions (initializeGame GAME_CONFIG 0) killAi1Actions 0)
        "ai-1" = some (some false) ∧
    aliveStatusOf
        ((runActions (initializeGame GAME_CONFIG 0) killAi1Actions 0).bind
          fun s => gameReducer s (GameAction.UPDATE_STATE resurrectionPatch) 0)
        "ai-1" = some (some true) :=
  ⟨rfl, rfl⟩

/-- **C6 (amended).**  For the turn commands (spin, spinner result, select
target, shoot, shot result, next turn, game over), the reducer never
resurrects: whenever it completes on a state whose alive flags are derived
from health, the output state keeps that well-formedness, no actor whose
alive flag was false has it true afterwards, and the count of alive actors
is non-increasing.  The wholesale state-replacement commands `INIT_GAME`,
`LOAD_GAME` and `UPDATE_STATE` are excluded: they can mark dead actors alive
again. -/
theorem c6_no_resurrection (s : GameState) (a : GameAction) (now : Int)
    (s' : GameState) (hta : a.isTurnCommand = true)
    (hwf : ∀ p ∈ s.players, p.isAlive = decide (0 < p.health))
    (hred : gameReducer s a now = some s') :
    (∀ p ∈ s'.players, p.isAlive = decide (0 < p.health)) ∧
    (∀ (i : Nat) (p q : Player), s.players.get? i = some p →
      s'.players.get? i = some q → q.isAlive = true → p.isAlive = true) ∧
    countAlive s'.players ≤ countAlive s.players := by
  have hpl : s'.players = s.players ∨
      ∃ i target, s.players.get? i = some target ∧
        s'.players = s.players.set i (applyDamage target) := by
    cases a with
    | INIT_GAME c => simp [GameAction.isTurnCommand] at hta
    | LOAD_GAME t => simp [GameAction.isTurnCommand] at hta
    | UPDATE_STATE p => simp [GameAction.isTurnCommand] at hta
    | SHOT_RESULT hit => exact shotResult_players s hit now s' hred
    | SPIN_REVOLVER =>
      left; obtain rfl := Option.some_inj.1 hred; rfl
    | SET_SPINNER_RESULT r sid =>
      left; obtain rfl := Option.some_inj.1 hred; rfl
    | SELECT_TARGET t =>
      left; obtain rfl := Option.some_inj.1 hred; rfl
    | SHOOT =>
      left; obtain rfl := Option.some_inj.1 hred; rfl
    | NEXT_TURN =>
      left; obtain rfl := Option.some_inj.1 hred; rfl
    | GAME_OVER =>
      left; obtain rfl := Option.some_inj.1 hred; rfl
  rcases hpl with hpl | ⟨i, target, hi, hpl⟩
  · refine ⟨?_, ?_, ?_⟩
    · rw [hpl]; exact hwf
    · intro j p q hp hq hqa
      rw [hpl, hp] at hq
      obtain rfl := Option.some_inj.1 hq
      exact hqa
    · rw [hpl]
  · refine ⟨?_, ?_, ?_⟩
    · intro p hp
      rw [hpl] at hp
      rcases List.mem_or_eq_of_mem_set hp with hp' | rfl
      · exact hwf p hp'
      · rfl
    · intro j p q hp hq hqa
      rw [hpl, List.get?_set] at hq
      by_cases hij : i = j
      · subst hij
        rw [if_pos rfl, hp] at hq
        have hq' : some (applyDamage target) = some q := hq
        obtain rfl := (Option.some_inj.1 hq').symm
        have hpt : p = target := by
          rw [hp] at hi
          exact Option.some_inj.1 hi
        subst hpt
        have h1 : 0 < p.health - 1 := of_decide_eq_true hqa
        rw [hwf p (List.get?_mem hp)]
        exact decide_eq_true (by omega)
      · rw [if_neg hij, hp] at hq
        obtain rfl := Option.some_inj.1 hq
        exact hqa
    · rw [hpl]
      apply countAlive_set_le
      intro y hy hxa
      rw [hi] at hy
      have hty := Option.some_inj.1 hy
      subst hty
      have h1 : 0 < target.health - 1 := of_decide_eq_true hxa
      rw [hwf target (List.get?_mem hi)]
      exact decide_eq_true (by omega)

/-- **C6 (witness).**  The no-resurrection theorem applied to the initialized
state and an accepted `SHOOT` command: the alive count does not increase. -/
theorem c6_witness :
    countAlive ({ initializeGame GAME_CONFIG 0 with
        phase := GamePhase.SHOOTING } : GameState).players ≤
      countAlive (initializeGame GAME_CONFIG 0).players :=
  (c6_no_resurrection (initializeGame GAME_CONFIG 0) GameAction.SHOOT 0
    { initializeGame GAME_CONFIG 0 with phase := GamePhase.SHOOTING }
    rfl (by decide) rfl).2.2

end Revolver
